import Mathlib

/-
Verification of the gdrivewrapper runtime policy layer
(src/gdrivewrapper/wrapper.py): the download rate limiter, the upload
retry loop, the update-vs-create dispatch, the chunked download loop, and
the optional concurrency gate.  Timestamps, byte counts and speeds are
modelled over the rationals; Python exceptions are modelled as explicit
result constructors; the division performed by the throttle block is
modelled as an Option so that a zero divisor (Python ZeroDivisionError)
is visible as `none`.
-/

namespace Gdrive

/-- Mutable throttle state of the download chunk loop: the previous
checkpoint timestamp (`prev_time`) and previous cumulative byte count
(`prev_bytes`), wrapper.py lines 23-24, updated at lines 38-39. -/
structure ThrottleState where
  prevTime : ℚ
  prevBytes : ℚ
deriving DecidableEq

/-- One execution of the throttle block body (wrapper.py lines 30-39)
with the ceiling already known truthy: samples `current_time`, computes
`bytes_since_last_checked = totalSize - prev_bytes`, divides by the
elapsed time with no guard (`actual_speed = bytes / (now - prev_time)`,
line 32), computes `excess_ratio = actual_speed / max_bytes_per_second - 1`,
sleeps `excess_ratio * max_bytes_per_second` when the ratio is positive,
and checkpoints the state.  A zero elapsed time makes the source raise
ZeroDivisionError, modelled here as `none`. -/
def throttleStep (st : ThrottleState) (totalSize now maxBytesPerSecond : ℚ) :
    Option (ℚ × ThrottleState) :=
  let elapsed := now - st.prevTime
  if elapsed = 0 then
    none
  else
    let bytesSinceLastChecked := totalSize - st.prevBytes
    let actualSpeed := bytesSinceLastChecked / elapsed
    let excessRatio := actualSpeed / maxBytesPerSecond - 1
    let sleepDuration := if 0 < excessRatio then excessRatio * maxBytesPerSecond else 0
    some (sleepDuration, ⟨now, totalSize⟩)

/-- The guarded throttle of one chunk iteration (wrapper.py line 29):
`if max_bytes_per_second:` tests the ceiling for truthiness, so both
`None` and `0` skip the whole block — no sleep and no state update. -/
def rateLimiterThrottle (st : ThrottleState) (totalSize now : ℚ)
    (maxBytesPerSecond : Option ℚ) : Option (ℚ × ThrottleState) :=
  match maxBytesPerSecond with
  | none => some (0, st)
  | some c => if c = 0 then some (0, st) else throttleStep st totalSize now c

/-- One chunk delivered by the remote get-media request: the bytes that
`next_chunk` writes into the file object, and the done flag it returns. -/
structure DLChunk where
  data : List Nat
  done : Bool
deriving DecidableEq

/-- The `while not done` chunk loop of `_download` (wrapper.py lines
26-39).  Each stream entry pairs a chunk with the `perf_counter`
timestamp observed after it; `total` is the cumulative byte count
reported by the chunk status (the collaborator contract
`chunkStatus.totalBytesSoFar`).  Returns `none` when the stream is
exhausted before the done flag is set (the remote iterator would fail)
or when the throttle block divides by a zero elapsed time. -/
def downloadLoop (maxBytesPerSecond : Option ℚ) :
    List (DLChunk × ℚ) → ThrottleState → ℚ → List Nat → Option (List Nat)
  | [], _, _, _ => none
  | (c, t) :: rest, st, total, buf =>
    let total' := total + (c.data.length : ℚ)
    let buf' := buf ++ c.data
    match rateLimiterThrottle st total' t maxBytesPerSecond with
    | none => none
    | some (_, st') =>
      if c.done then some buf' else downloadLoop maxBytesPerSecond rest st' total' buf'

/-- `_download` (wrapper.py lines 18-39): issues the get-media request
for `key` (the remote collaborator `svc` maps a fileId to its chunk
stream), initialises `prev_time` to the starting timestamp `t0` and
`prev_bytes` to 0, and drives the chunk loop over the file object
buffer `fp`. -/
def download (svc : String → List (DLChunk × ℚ)) (key : String) (fp : List Nat)
    (maxBytesPerSecond : Option ℚ) (t0 : ℚ) : Option (List Nat) :=
  downloadLoop maxBytesPerSecond (svc key) ⟨t0, 0⟩ 0 fp

/-- `GDriveWrapper.download_bytes` (wrapper.py lines 87-96): runs
`_download` over a fresh in-memory buffer and returns its contents. -/
def download_bytes (svc : String → List (DLChunk × ℚ)) (key : String)
    (maxBytesPerSecond : Option ℚ) (t0 : ℚ) : Option (List Nat) :=
  download svc key [] maxBytesPerSecond t0

/-- Python exceptions relevant to `upload`: `ssl.SSLError` and
`BrokenPipeError` are caught by the retry loop (wrapper.py line 79);
anything else propagates out of the loop. -/
inductive PyError where
  | sslError (msg : String)
  | brokenPipeError (msg : String)
  | other (name msg : String)
deriving DecidableEq

/-- Whether the except clause at wrapper.py line 79 catches the error. -/
def isTransient : PyError → Bool
  | .sslError _ => true
  | .brokenPipeError _ => true
  | .other _ _ => false

/-- `str(e)`, the message recorded at wrapper.py line 80. -/
def errMsg : PyError → String
  | .sslError m => m
  | .brokenPipeError m => m
  | .other _ m => m

/-- Outcome of one invocation of the remote operation. -/
inductive OpResult (α : Type) where
  | ok (v : α)
  | raise (e : PyError)
deriving DecidableEq

/-- Outcome of the whole upload call: a returned value, an error
propagated unchanged out of the loop, or the synthesized terminal
`RuntimeError(last_exception_msg)` of wrapper.py line 85, which carries
only the recorded message (possibly `None`). -/
inductive UploadResult (α : Type) where
  | success (v : α)
  | propagated (e : PyError)
  | exhausted (lastMsg : Option String)
deriving DecidableEq

/-- The retry loop of `GDriveWrapper.upload` (wrapper.py lines 72-85),
running from loop index `i` with the given number of remaining
iterations and the last recorded transient message: on success return
the value; on a transient error record `str(e)`, sleep, and continue;
on any other error propagate it; when the iterations are exhausted,
raise `RuntimeError(last_exception_msg)`.  The second component counts
how many times the operation was invoked. -/
def uploadLoopFrom (op : Nat → OpResult α) (i : Nat) :
    Nat → Option String → UploadResult α × Nat
  | 0, last => (.exhausted last, 0)
  | r + 1, _last =>
    match op i with
    | .ok v => (.success v, 1)
    | .raise e =>
      if isTransient e then
        let res := uploadLoopFrom op (i + 1) r (some (errMsg e))
        (res.1, res.2 + 1)
      else
        (.propagated e, 1)

/-- Values stored in the request body dict (`kwargs`). -/
inductive DVal where
  | str (s : String)
  | strList (xs : List String)
  | bytes (b : List Nat)
  | dict (fields : List (String × DVal))

/-- Python dict assignment `d[k] = v` on a dict modelled as an
association list. -/
def dictSet (d : List (String × DVal)) (k : String) (v : DVal) :
    List (String × DVal) :=
  (k, v) :: d.filter (fun p => p.1 != k)

/-- Python `d.get(k)`. -/
def dictGet (d : List (String × DVal)) (k : String) : Option DVal :=
  (d.find? (fun p => p.1 == k)).map (fun p => p.2)

/-- Body shaping of `upload` (wrapper.py lines 59-70): a truthy
`folder_id` sets `kwargs["parents"] = [folder_id]`; a truthy `thumbnail`
is merged into the `contentHints` dict (taken as empty when absent; the
modelled calls never hold a non-dict there) under `"thumbnail"` with
PNG mime type. -/
def shapeBody (folderId : Option String) (thumbnail : Option (List Nat))
    (kwargs : List (String × DVal)) : List (String × DVal) :=
  let k1 :=
    match folderId with
    | some f => if f = "" then kwargs else dictSet kwargs "parents" (.strList [f])
    | none => kwargs
  match thumbnail with
  | some tn =>
    if tn = [] then k1
    else
      let ch :=
        match dictGet k1 "contentHints" with
        | some (.dict d) => d
        | _ => []
      let ch' := dictSet ch "thumbnail"
        (.dict [("image", .bytes tn), ("mimeType", .str "image/png")])
      dictSet k1 "contentHints" (.dict ch')
  | none => k1

/-- The remote service call issued by one upload attempt
(wrapper.py lines 75-78). -/
inductive RemoteCall (μ : Type) where
  | update (fileId : String) (body : List (String × DVal)) (media : μ)
  | create (body : List (String × DVal)) (media : μ)

/-- Truthiness dispatch on `key` (wrapper.py line 75): a truthy key
updates that fileId in place, otherwise a new file is created. -/
def keyCall (key : Option String) (body : List (String × DVal)) (media : μ) :
    RemoteCall μ :=
  match key with
  | some k => if k = "" then .create body media else .update k body media
  | none => .create body media

/-- `GDriveWrapper.upload` (wrapper.py lines 48-85): shapes the body,
then runs the retry loop; every attempt issues the same remote call and
returns whatever the remote service answers.  `retryCount` models the
Python int argument: `range(retry_count)` is empty when
`retry_count <= 0`, hence the `Int.toNat`. -/
def upload (svc : RemoteCall μ → OpResult α) (media : μ)
    (key folderId : Option String) (thumbnail : Option (List Nat))
    (retryCount : Int) (kwargs : List (String × DVal)) : UploadResult α × Nat :=
  let body := shapeBody folderId thumbnail kwargs
  uploadLoopFrom (fun _ => svc (keyCall key body media)) 0 retryCount.toNat none

/-- Modelled from the spec: lock acquire/release trace events of the
concurrency gate — the gate's source, gdrivewrapper/decorator/single.py
(`prevent_concurrent_calls`, applied at wrapper.py lines 45-46), is not
under src/, so the gate is modelled from spec section 4.3. -/
inductive GEvent where
  | acquire (t : Fin 2)
  | release (t : Fin 2)
deriving DecidableEq

/-- Modelled from the spec: control point of one gated caller — not yet
entered, inside the wrapped operation, or finished. -/
inductive GPC where
  | start
  | inCrit
  | finished
deriving DecidableEq

/-- Modelled from the spec: the shared lock, both callers' control
points, and the observed event trace. -/
structure GateState where
  lockHeld : Option (Fin 2)
  pc : Fin 2 → GPC
  trace : List GEvent

/-- Modelled from the spec: one interleaving step of two concurrent
callers of a gated client.  Acquisition only fires when the lock is
free (a blocked caller simply has no enabled step); whatever the
outcome of the wrapped body (the `success` flag), the exit step
releases the lock and emits the release event — the finally-block
discipline of spec section 4.3 point (5). -/
inductive GateStep : GateState → GateState → Prop where
  | acquire (s : GateState) (t : Fin 2) (h1 : s.pc t = .start)
      (h2 : s.lockHeld = none) :
      GateStep s ⟨some t, Function.update s.pc t .inCrit, s.trace ++ [.acquire t]⟩
  | finish (s : GateState) (t : Fin 2) (success : Bool) (h1 : s.pc t = .inCrit)
      (h2 : s.lockHeld = some t) :
      GateStep s ⟨none, Function.update s.pc t .finished, s.trace ++ [.release t]⟩

/-- Modelled from the spec: initially both callers are about to enter,
the lock is free, and the trace is empty. -/
def gateInit : GateState := ⟨none, fun _ => .start, []⟩

/-- Modelled from the spec: the states reachable by interleaving the
two gated callers. -/
inductive GateReachable : GateState → Prop where
  | init : GateReachable gateInit
  | step {s s' : GateState} (h : GateReachable s) (hs : GateStep s s') :
      GateReachable s'

/-- Replays a trace against the lock semantics: an acquire is possible
only when the lock is free, a release only by the current holder.
Returns the resulting holder, or `none` for an impossible trace. -/
def runTrace : Option (Fin 2) → List GEvent → Option (Option (Fin 2))
  | l, [] => some l
  | none, .acquire t :: rest => runTrace (some t) rest
  | some _, .acquire _ :: _rest => none
  | some t, .release u :: rest => if t = u then runTrace none rest else none
  | none, .release _ :: _rest => none

/-- Remote metadata answer used by the update-or-create witness: names the
updated fileId, or "new" for a creation. -/
def respW : RemoteCall Nat → String
  | .update k _ _ => k
  | .create _ _ => "new"

/-! Helper lemmas about the retry loop. -/

theorem uploadLoopFrom_zero {α : Type} (op : Nat → OpResult α) (i : Nat)
    (last : Option String) : uploadLoopFrom op i 0 last = (.exhausted last, 0) := rfl

theorem uploadLoopFrom_step_transient {α : Type} (op : Nat → OpResult α) (i r : Nat)
    (last : Option String) (e : PyError) (he : op i = .raise e)
    (ht : isTransient e = true) :
    uploadLoopFrom op i (r + 1) last
      = ((uploadLoopFrom op (i + 1) r (some (errMsg e))).1,
          (uploadLoopFrom op (i + 1) r (some (errMsg e))).2 + 1) := by
  simp only [uploadLoopFrom, he, ht, if_true]

theorem uploadLoopFrom_ok {α : Type} (op : Nat → OpResult α) (i r : Nat)
    (last : Option String) (v : α) (h : op i = .ok v) :
    uploadLoopFrom op i (r + 1) last = (.success v, 1) := by
  simp [uploadLoopFrom, h]

theorem uploadLoopFrom_transient {α : Type} (op : Nat → OpResult α) (es : Nat → PyError)
    (hop : ∀ j, op j = .raise (es j)) (htr : ∀ j, isTransient (es j) = true) :
    ∀ (r i : Nat) (last : Option String),
      uploadLoopFrom op i (r + 1) last
        = (.exhausted (some (errMsg (es (i + r)))), r + 1) := by
  intro r
  induction r with
  | zero =>
    intro i last
    rw [uploadLoopFrom_step_transient op i 0 last (es i) (hop i) (htr i)]
    simp [uploadLoopFrom_zero]
  | succ r ih =>
    intro i last
    rw [uploadLoopFrom_step_transient op i (r + 1) last (es i) (hop i) (htr i)]
    rw [ih (i + 1)]
    have h : i + 1 + r = i + (r + 1) := by omega
    simp [h]

theorem uploadLoopFrom_success {α : Type} (op : Nat → OpResult α) (es : Nat → PyError)
    (v : α) :
    ∀ (k i r : Nat) (last : Option String),
      k < r →
      (∀ j, j < k → op (i + j) = .raise (es (i + j))) →
      (∀ j, j < k → isTransient (es (i + j)) = true) →
      op (i + k) = .ok v →
      uploadLoopFrom op i r last = (.success v, k + 1) := by
  intro k
  induction k with
  | zero =>
    intro i r last hk hop htr hok
    obtain ⟨r', rfl⟩ : ∃ r', r = r' + 1 := ⟨r - 1, by omega⟩
    simp only [Nat.add_zero] at hok
    simp [uploadLoopFrom, hok]
  | succ k ih =>
    intro i r last hk hop htr hok
    obtain ⟨r', rfl⟩ : ∃ r', r = r' + 1 := ⟨r - 1, by omega⟩
    have h0 : op i = .raise (es i) := by simpa using hop 0 (by omega)
    have t0 : isTransient (es i) = true := by simpa using htr 0 (by omega)
    simp only [uploadLoopFrom, h0, t0, if_true]
    rw [ih (i + 1) r' (some (errMsg (es i))) (by omega)
      (fun j hj => by
        have := hop (j + 1) (by omega)
        rwa [show i + (j + 1) = i + 1 + j by omega] at this)
      (fun j hj => by
        have := htr (j + 1) (by omega)
        rwa [show i + (j + 1) = i + 1 + j by omega] at this)
      (by rwa [show i + (k + 1) = i + 1 + k by omega] at hok)]

/-! The claims about the rate limiter. -/

/-- C1: the claim states that when the elapsed time since the previous
checkpoint is not positive, the chunk loop treats the actual speed as
unbounded and sleeps proportionally rather than dividing by zero.  The
source (wrapper.py line 32) divides by the elapsed time with no guard:
at a chunk event whose timestamp equals the previous checkpoint
(elapsed = 0) the throttle computation fails with ZeroDivisionError
(modelled as `none`) instead of sleeping.  The claim is right about the
intended behaviour — the spec requires the guard explicitly — and the
code omits it. -/
theorem throttle_division_unguarded : throttleStep ⟨3, 0⟩ 7 3 10 = none := by
  norm_num [throttleStep]

/-- C2: for every chunk event, writing bytes for `totalSize - prevBytes`
and elapsed for `now - prevTime`: a `None` ceiling gives sleep 0 (and
leaves the state untouched); with a positive ceiling and positive
elapsed time, `bytes/elapsed <= ceiling` gives sleep 0, and
`bytes/elapsed > ceiling` gives sleep exactly
`(bytes/elapsed/ceiling - 1) * ceiling`. -/
theorem throttle_sleep_formula (st : ThrottleState) (totalSize now c : ℚ) :
    rateLimiterThrottle st totalSize now none = some (0, st)
    ∧ (0 < c → 0 < now - st.prevTime →
        (totalSize - st.prevBytes) / (now - st.prevTime) ≤ c →
        throttleStep st totalSize now c = some (0, ⟨now, totalSize⟩))
    ∧ (0 < c → 0 < now - st.prevTime →
        c < (totalSize - st.prevBytes) / (now - st.prevTime) →
        throttleStep st totalSize now c
          = some (((totalSize - st.prevBytes) / (now - st.prevTime) / c - 1) * c,
              ⟨now, totalSize⟩)) := by
  refine ⟨rfl, ?_, ?_⟩
  · intro hc he hle
    have h1 : (totalSize - st.prevBytes) / (now - st.prevTime) / c ≤ 1 := by
      rw [div_le_one hc]; exact hle
    have h2 : ¬ (0 < (totalSize - st.prevBytes) / (now - st.prevTime) / c - 1) := by
      linarith
    simp only [throttleStep, if_neg he.ne', if_neg h2]
  · intro hc he hgt
    have h1 : 1 < (totalSize - st.prevBytes) / (now - st.prevTime) / c := by
      rw [one_lt_div hc]; exact hgt
    have h2 : 0 < (totalSize - st.prevBytes) / (now - st.prevTime) / c - 1 := by
      linarith
    simp only [throttleStep, if_neg he.ne', if_pos h2]

theorem throttle_sleep_formula_witness :
    rateLimiterThrottle ⟨0, 0⟩ 10 1 none = some (0, ⟨0, 0⟩)
    ∧ throttleStep ⟨0, 0⟩ 4 1 5 = some (0, ⟨1, 4⟩)
    ∧ throttleStep ⟨0, 0⟩ 10 1 5 = some (5, ⟨1, 10⟩) := by
  refine ⟨(throttle_sleep_formula ⟨0, 0⟩ 10 1 5).1, ?_, ?_⟩
  · have h := (throttle_sleep_formula ⟨0, 0⟩ 4 1 5).2.1 (by norm_num) (by norm_num)
      (by norm_num)
    rw [h]
  · have h := (throttle_sleep_formula ⟨0, 0⟩ 10 1 5).2.2 (by norm_num) (by norm_num)
      (by norm_num)
    rw [h]
    norm_num

theorem downloadLoop_zero_ceiling (chunks : List (DLChunk × ℚ)) :
    ∀ (st : ThrottleState) (total : ℚ) (buf : List Nat),
      downloadLoop (some 0) chunks st total buf
        = downloadLoop none chunks st total buf := by
  induction chunks with
  | nil => intro st total buf; rfl
  | cons p rest ih =>
    intro st total buf
    obtain ⟨c, t⟩ := p
    simp only [downloadLoop, rateLimiterThrottle, if_pos rfl]
    by_cases hc : c.done
    · simp [hc]
    · simp [hc, ih]

/-- C10: a download called with `max_bytes_per_second = 0` behaves
exactly as if the ceiling were `None`: the truthiness test skips the
throttle block, so no sleep happens and the throttle state is never
updated, on every chunk of the download. -/
theorem zero_ceiling_disables_throttle (st : ThrottleState) (totalSize now : ℚ)
    (chunks : List (DLChunk × ℚ)) (total : ℚ) (buf : List Nat) :
    rateLimiterThrottle st totalSize now (some 0) = some (0, st)
    ∧ rateLimiterThrottle st totalSize now (some 0)
        = rateLimiterThrottle st totalSize now none
    ∧ downloadLoop (some 0) chunks st total buf
        = downloadLoop none chunks st total buf := by
  exact ⟨by simp [rateLimiterThrottle], by simp [rateLimiterThrottle],
    downloadLoop_zero_ceiling chunks st total buf⟩

/-! The claims about the upload retry loop. -/

/-- C3: for an operation that fails with a transient transport error on
every attempt, the retry loop with a positive attempt ceiling `n`
invokes the operation exactly `n` times and then raises a single
synthesized terminal error whose only payload is the message of the
final attempt's error. -/
theorem upload_retry_exhaustion {α : Type} (op : Nat → OpResult α) (es : Nat → PyError)
    (n : Nat) (hn : 0 < n) (hop : ∀ j, op j = .raise (es j))
    (htr : ∀ j, isTransient (es j) = true) :
    uploadLoopFrom op 0 n none = (.exhausted (some (errMsg (es (n - 1)))), n) := by
  obtain ⟨r, rfl⟩ : ∃ r, n = r + 1 := ⟨n - 1, by omega⟩
  rw [uploadLoopFrom_transient op es hop htr r 0 none]
  simp

theorem upload_retry_exhaustion_witness :
    uploadLoopFrom (fun _ => OpResult.raise (PyError.sslError "boom")) 0 3 none
      = ((UploadResult.exhausted (some "boom") : UploadResult Nat), 3) :=
  upload_retry_exhaustion (fun _ => OpResult.raise (PyError.sslError "boom"))
    (fun _ => PyError.sslError "boom") 3 (by omega) (fun _ => rfl) (fun _ => rfl)

/-- C4: for an operation that fails with a transient transport error on
its first `k` attempts (`k < n`) and succeeds on attempt `k + 1`, the
retry loop returns the success value and the operation is invoked
exactly `k + 1` times. -/
theorem upload_retry_eventual_success {α : Type} (op : Nat → OpResult α)
    (es : Nat → PyError) (k n : Nat) (v : α) (hk : k < n)
    (hop : ∀ j, j < k → op j = .raise (es j))
    (htr : ∀ j, j < k → isTransient (es j) = true)
    (hok : op k = .ok v) :
    uploadLoopFrom op 0 n none = (.success v, k + 1) := by
  apply uploadLoopFrom_success op es v k 0 n none hk
  · intro j hj; simpa using hop j hj
  · intro j hj; simpa using htr j hj
  · simpa using hok

theorem upload_retry_eventual_success_witness :
    uploadLoopFrom
      (fun j => if j = 0 then OpResult.raise (PyError.sslError "x") else OpResult.ok 7)
      0 2 none = (UploadResult.success 7, 2) :=
  upload_retry_eventual_success
    (fun j => if j = 0 then OpResult.raise (PyError.sslError "x") else OpResult.ok 7)
    (fun _ => PyError.sslError "x") 1 2 7 (by omega)
    (fun j hj => by have hj0 : j = 0 := by omega
                    subst hj0; rfl)
    (fun j hj => by have hj0 : j = 0 := by omega
                    subst hj0; rfl)
    rfl

/-- C5: for an operation whose first invocation raises an error that is
not one of the designated transient kinds, the retry loop invokes the
operation exactly once and the original error propagates to the caller
unchanged, with no retry. -/
theorem upload_nontransient_propagates {α : Type} (op : Nat → OpResult α) (e : PyError)
    (n : Nat) (hn : 0 < n) (h0 : op 0 = .raise e) (hnt : isTransient e = false) :
    uploadLoopFrom op 0 n none = (.propagated e, 1) := by
  obtain ⟨r, rfl⟩ : ∃ r, n = r + 1 := ⟨n - 1, by omega⟩
  simp [uploadLoopFrom, h0, hnt]

theorem upload_nontransient_propagates_witness :
    uploadLoopFrom
      (fun _ => (OpResult.raise (PyError.other "ValueError" "bad") : OpResult Nat))
      0 5 none = (UploadResult.propagated (PyError.other "ValueError" "bad"), 1) :=
  upload_nontransient_propagates _ (PyError.other "ValueError" "bad") 5 (by omega)
    rfl rfl

/-- C9: an upload call with `retry_count <= 0` never executes the loop
body — the remote service is never invoked (invocation count 0) — and
raises the synthesized terminal error with payload `None`, because
`range(retry_count)` is empty and `last_exception_msg` still holds its
initial `None`. -/
theorem upload_nonpositive_retry {μ α : Type} (svc : RemoteCall μ → OpResult α)
    (media : μ) (key folderId : Option String) (thumbnail : Option (List Nat))
    (rc : Int) (kwargs : List (String × DVal)) (hrc : rc ≤ 0) :
    upload svc media key folderId thumbnail rc kwargs = (.exhausted none, 0) := by
  have h : rc.toNat = 0 := by omega
  show uploadLoopFrom _ 0 rc.toNat none = _
  rw [h, uploadLoopFrom_zero]

theorem upload_nonpositive_retry_witness :
    upload (fun _ => OpResult.ok 1) (0 : Nat) none none none (-2) []
      = ((UploadResult.exhausted none : UploadResult Nat), 0) :=
  upload_nonpositive_retry (fun _ => OpResult.ok 1) 0 none none none (-2) [] (by omega)

/-- C6: an upload whose remote service answers every call — with a
nonempty `key`, the client performs the remote update operation on
exactly that fileId; with `key` absent, it performs the remote create
operation; in both cases it returns the remote service's metadata
response verbatim, after a single invocation. -/
theorem upload_update_or_create {μ α : Type} (svc : RemoteCall μ → OpResult α)
    (resp : RemoteCall μ → α) (media : μ) (folderId : Option String)
    (thumbnail : Option (List Nat)) (kwargs : List (String × DVal)) (rc : Int)
    (hrc : 1 ≤ rc) (hsvc : ∀ c, svc c = .ok (resp c)) :
    (∀ k : String, k ≠ "" →
      upload svc media (some k) folderId thumbnail rc kwargs
        = (.success (resp (.update k (shapeBody folderId thumbnail kwargs) media)), 1))
    ∧ upload svc media none folderId thumbnail rc kwargs
        = (.success (resp (.create (shapeBody folderId thumbnail kwargs) media)), 1) := by
  obtain ⟨m, hm⟩ : ∃ m, rc.toNat = m + 1 := ⟨rc.toNat - 1, by omega⟩
  constructor
  · intro k hk
    show uploadLoopFrom _ 0 rc.toNat none = _
    rw [hm]
    exact uploadLoopFrom_ok _ 0 m none _ (by simp [keyCall, hk, hsvc])
  · show uploadLoopFrom _ 0 rc.toNat none = _
    rw [hm]
    exact uploadLoopFrom_ok _ 0 m none _ (by simp [keyCall, hsvc])

theorem upload_update_or_create_witness :
    upload (fun c => OpResult.ok (respW c)) 42 (some "F1") none none 1 []
      = (.success "F1", 1)
    ∧ upload (fun c => OpResult.ok (respW c)) 42 none none none 1 []
      = (.success "new", 1) :=
  ⟨(upload_update_or_create (fun c => OpResult.ok (respW c)) respW 42 none none [] 1
      (by omega) (fun _ => rfl)).1 "F1" (by decide),
   (upload_update_or_create (fun c => OpResult.ok (respW c)) respW 42 none none [] 1
      (by omega) (fun _ => rfl)).2⟩

/-! The claim about the download chunk loop. -/

theorem downloadLoop_chunks_concat (lc : DLChunk × ℚ) (hlast : lc.1.done = true) :
    ∀ (start : List (DLChunk × ℚ)), (∀ p ∈ start, p.1.done = false) →
      ∀ (st : ThrottleState) (total : ℚ) (buf : List Nat),
        downloadLoop none (start ++ [lc]) st total buf
          = some (buf ++ ((start ++ [lc]).map (fun p => p.1.data)).flatten) := by
  intro start
  induction start with
  | nil =>
    intro _ st total buf
    obtain ⟨c, t⟩ := lc
    simp only at hlast
    simp [downloadLoop, rateLimiterThrottle, hlast]
  | cons p rest ih =>
    intro hall st total buf
    obtain ⟨c, t⟩ := p
    have hc : c.done = false := by simpa using hall (c, t) (by simp)
    simp only [List.cons_append, downloadLoop, rateLimiterThrottle, hc,
      Bool.false_eq_true, if_false, List.append_eq]
    rw [ih (fun q hq => hall q (by simp [hq]))]
    simp

/-- C7: for every key and every finite chunk stream returned by the
remote get-media request in which every chunk except the last carries
`done = False` and the last carries `done = True`, `download_bytes`
drives the chunk loop until the done flag is set and returns the
concatenation, in order, of all chunks' bytes. -/
theorem download_bytes_concatenates (svc : String → List (DLChunk × ℚ)) (key : String)
    (start : List (DLChunk × ℚ)) (lc : DLChunk × ℚ) (t0 : ℚ)
    (hstream : svc key = start ++ [lc])
    (hstart : ∀ p ∈ start, p.1.done = false) (hlast : lc.1.done = true) :
    download_bytes svc key none t0
      = some (((start ++ [lc]).map (fun p => p.1.data)).flatten) := by
  show downloadLoop none (svc key) ⟨t0, 0⟩ 0 [] = _
  rw [hstream, downloadLoop_chunks_concat lc hlast start hstart]
  simp

theorem download_bytes_concatenates_witness :
    download_bytes (fun _ => [(⟨[1, 2], false⟩, 1), (⟨[3], true⟩, 2)]) "F1" none 0
      = some [1, 2, 3] := by
  have h := download_bytes_concatenates
    (fun _ => [(⟨[1, 2], false⟩, 1), (⟨[3], true⟩, 2)]) "F1"
    [(⟨[1, 2], false⟩, 1)] (⟨[3], true⟩, 2) 0 rfl (by decide) rfl
  simpa using h

/-! The claim about the concurrency gate. -/

theorem runTrace_append (xs : List GEvent) :
    ∀ (l : Option (Fin 2)) (ys : List GEvent),
      runTrace l (xs ++ ys) = (runTrace l xs).bind (fun m => runTrace m ys) := by
  induction xs with
  | nil => intro l ys; simp [runTrace]
  | cons e rest ih =>
    intro l ys
    match l, e with
    | none, .acquire t => simpa [runTrace] using ih (some t) ys
    | some v, .acquire t => simp [runTrace]
    | some v, .release u =>
      by_cases h : v = u
      · subst h
        simpa [runTrace] using ih none ys
      · simp [runTrace, h]
    | none, .release u => simp [runTrace]

theorem gate_trace_valid {s : GateState} (h : GateReachable s) :
    runTrace none s.trace = some s.lockHeld := by
  induction h with
  | init => rfl
  | step h hs ih =>
    cases hs with
    | acquire t h1 h2 =>
      simp only [runTrace_append, ih, Option.some_bind, h2]
      simp [runTrace]
    | finish t success h1 h2 =>
      simp only [runTrace_append, ih, Option.some_bind, h2]
      simp [runTrace]

theorem runTrace_held_acquire {a b : Fin 2} (l₂ l₃ : List GEvent)
    (res : Option (Fin 2))
    (h : runTrace (some a) (l₂ ++ GEvent.acquire b :: l₃) = some res) :
    GEvent.release a ∈ l₂ := by
  cases l₂ with
  | nil => simp [runTrace] at h
  | cons e rest =>
    cases e with
    | acquire t => simp [runTrace] at h
    | release u =>
      by_cases hu : a = u
      · subst hu
        exact List.mem_cons_self _ _
      · simp [runTrace, hu] at h

theorem gate_finished_released {s : GateState} (h : GateReachable s) :
    ∀ t : Fin 2, s.pc t = .finished → GEvent.release t ∈ s.trace := by
  induction h with
  | init =>
    intro t ht
    simp [gateInit] at ht
  | step h hs ih =>
    intro t ht
    cases hs with
    | acquire u hu1 hu2 =>
      by_cases htu : t = u
      · subst htu
        simp only [Function.update_same] at ht
        exact absurd ht (by simp)
      · simp only [Function.update_noteq htu] at ht
        exact List.mem_append_left _ (ih t ht)
    | finish u success hu1 hu2 =>
      by_cases htu : t = u
      · subst htu
        exact List.mem_append_right _ (List.mem_singleton.mpr rfl)
      · simp only [Function.update_noteq htu] at ht
        exact List.mem_append_left _ (ih t ht)

/-- C8: with the gate enabled, in every reachable interleaving of two
concurrent callers the observed trace never shows a second acquisition
before the first caller's release — whenever the trace contains an
acquire by `a` followed later by an acquire by `b`, a release by `a`
lies strictly between them, so the gated bodies never overlap — and the
lock is released on every exit path: every caller that finished, with
the wrapped body succeeding or failing, has a release event in the
trace. -/
theorem gate_mutual_exclusion (s : GateState) (hs : GateReachable s) :
    (∀ (l₁ l₂ l₃ : List GEvent) (a b : Fin 2),
        s.trace = l₁ ++ GEvent.acquire a :: (l₂ ++ GEvent.acquire b :: l₃) →
        GEvent.release a ∈ l₂)
    ∧ (∀ t : Fin 2, s.pc t = .finished → GEvent.release t ∈ s.trace) := by
  refine ⟨?_, gate_finished_released hs⟩
  intro l₁ l₂ l₃ a b htr
  have hv := gate_trace_valid hs
  rw [htr, runTrace_append] at hv
  cases hl : runTrace none l₁ with
  | none => rw [hl] at hv; simp at hv
  | some m =>
    rw [hl, Option.some_bind] at hv
    cases m with
    | some x => simp [runTrace] at hv
    | none =>
      rw [show runTrace none (GEvent.acquire a :: (l₂ ++ GEvent.acquire b :: l₃))
          = runTrace (some a) (l₂ ++ GEvent.acquire b :: l₃) from rfl] at hv
      exact runTrace_held_acquire l₂ l₃ _ hv

theorem gate_mutual_exclusion_witness :
    GEvent.release 0 ∈ [GEvent.release 0] := by
  have r1 : GateReachable _ := GateReachable.step GateReachable.init
    (GateStep.acquire gateInit 0 (by decide) (by decide))
  have r2 : GateReachable _ := GateReachable.step r1
    (GateStep.finish _ 0 true (by decide) (by decide))
  have r3 : GateReachable _ := GateReachable.step r2
    (GateStep.acquire _ 1 (by decide) (by decide))
  have r4 : GateReachable _ := GateReachable.step r3
    (GateStep.finish _ 1 false (by decide) (by decide))
  exact (gate_mutual_exclusion _ r4).1 [] [GEvent.release 0] [GEvent.release 1] 0 1
    (by decide)

end Gdrive
